import Mathlib

/-!
Verification development for the Urban-Maintenance-Scout repository.

The Python sources are shallowly embedded below:
* `src/utils/cv_analysis.py` — `iou` and the deduplication pass of
  `analyze_image_combined` (lines 186-233);
* `src/chains/analyst_chain.py` — `extract_report_dict` (lines 110-170) and
  `generate_report` (lines 213-285);
* `src/utils/fetcher.py` — `fetch_street_view_image` and
  `validate_coordinates`;
* `src/utils/scan_location.py` — the orchestration function `main`.

Python floats are modelled by `ℚ` (all the constants involved — scores,
coordinate bounds, `0.5`, `1e-6` — and the comparisons on them are exact in
the regimes the theorems speak about).  External collaborators (the two
detector models, the HTTP stack, the `json`/`re`/`ast` standard-library
calls, Supabase storage and database) are modelled as explicit oracle
parameters; the repository's own control flow around them is embedded
faithfully.
-/

/-! ## Python string primitives used by the embedded code -/

/-- Embedding of Python `str.lower` on one character (ASCII case fold, which
is what the labels and summaries in this code path exercise). -/
def lowerChar (c : Char) : Char :=
  if 'A' ≤ c ∧ c ≤ 'Z' then Char.ofNat (c.toNat + 32) else c

/-- Embedding of Python `str.lower`. -/
def pyLower (s : String) : String :=
  ⟨s.data.map lowerChar⟩

/-- `leadsWith p l` is true when the character list `p` is an initial
segment of `l` (helper for the substring test). -/
def leadsWith : List Char → List Char → Bool
  | [], _ => true
  | _ :: _, [] => false
  | a :: p, b :: l => a == b && leadsWith p l

/-- Embedding of Python's substring test `p in l` on character lists. -/
def containsSub (p : List Char) : List Char → Bool
  | [] => leadsWith p []
  | b :: l => leadsWith p (b :: l) || containsSub p l

/-- Helper for `pyTokens`: scan the characters, accumulating the current
(reversed) token. -/
def tokensAux : List Char → List Char → List String
  | [], cur => if cur = [] then [] else [⟨cur.reverse⟩]
  | c :: rest, cur =>
    if c.isWhitespace then
      if cur = [] then tokensAux rest []
      else ⟨cur.reverse⟩ :: tokensAux rest []
    else tokensAux rest (c :: cur)

/-- Embedding of Python `str.split()` with no separator: whitespace-delimited
tokens, empty pieces dropped. -/
def pyTokens (s : String) : List String :=
  tokensAux s.data []

/-- Embedding of Python `str.strip()`: remove leading and trailing
whitespace. -/
def pyStrip (s : String) : String :=
  ⟨((s.data.dropWhile Char.isWhitespace).reverse.dropWhile
      Char.isWhitespace).reverse⟩

/-- Embedding of Python `str(n)` for a natural number: decimal digits. -/
def digitChar (d : Nat) : Char := Char.ofNat (48 + d)

/-- Decimal digit characters of `n`, most significant first. -/
def natChars (n : Nat) : List Char :=
  if _h : n < 10 then [digitChar n]
  else natChars (n / 10) ++ [digitChar (n % 10)]
  decreasing_by exact Nat.div_lt_self (by omega) (by omega)

/-- Embedding of Python `str(n)` (`n : Nat`). -/
def natStr (n : Nat) : String := ⟨natChars n⟩

/-! ## Detections, IoU and the deduplication pass
(`src/utils/cv_analysis.py`) -/

/-- A bounding box, integer pixel coordinates
(`{"xmin": ..., "ymin": ..., "xmax": ..., "ymax": ...}`). -/
structure Box where
  xmin : Int
  ymin : Int
  xmax : Int
  ymax : Int
  deriving Repr, DecidableEq

/-- One detection: `{"label": ..., "score": ..., "box": ...}`. -/
structure Detection where
  label : String
  score : ℚ
  box : Box
  deriving Repr, DecidableEq

/-- Intersection area term of `iou` (cv_analysis.py lines 189-197):
`(x2 - x1) * (y2 - y1)` for the clipped corners. -/
def interArea (box1 box2 : Box) : Int :=
  (min box1.xmax box2.xmax - max box1.xmin box2.xmin) *
    (min box1.ymax box2.ymax - max box1.ymin box2.ymin)

/-- Union area term of `iou` (cv_analysis.py lines 198-200). -/
def unionArea (box1 box2 : Box) : Int :=
  (box1.xmax - box1.xmin) * (box1.ymax - box1.ymin) +
    (box2.xmax - box2.xmin) * (box2.ymax - box2.ymin) - interArea box1 box2

/-- Embedding of `iou` (cv_analysis.py lines 186-205): 0.0 when the clipped
corners do not bound a positive-area rectangle, otherwise
`inter_area / (union_area + 1e-6)`. -/
def iou (box1 box2 : Box) : ℚ :=
  let x1 := max box1.xmin box2.xmin
  let y1 := max box1.ymin box2.ymin
  let x2 := min box1.xmax box2.xmax
  let y2 := min box1.ymax box2.ymax
  if x2 ≤ x1 ∨ y2 ≤ y1 then 0
  else (interArea box1 box2 : ℚ) / ((unionArea box1 box2 : ℚ) + 1 / 1000000)

/-- The label-similarity test of the deduplication pass
(cv_analysis.py lines 215-217): equal lowercased labels, or some
whitespace-delimited token of one lowercased label occurring as a substring
of the other, in either direction. -/
def similarLabel (det existing : Detection) : Bool :=
  let dl := pyLower det.label
  let el := pyLower existing.label
  dl == el
    || (pyTokens el).any (fun word => containsSub word.data dl.data)
    || (pyTokens dl).any (fun word => containsSub word.data el.data)

/-- The "same object" test of the deduplication pass: similar labels and
IoU strictly above 0.5 (cv_analysis.py lines 215-219). -/
def sameObject (det existing : Detection) : Bool :=
  similarLabel det existing && decide ((1 : ℚ) / 2 < iou det.box existing.box)

/-- The inner loop of the deduplication pass (cv_analysis.py lines 212-227),
parameterized by the match test: scan the accepted list for the first entry
matching `det`; on a match, replace that entry in place when `det` scores
strictly higher, and report the match (`some` of the updated list).  `none`
means no accepted entry matched. -/
def insertWith (same : Detection → Detection → Bool) (det : Detection) :
    List Detection → Option (List Detection)
  | [] => none
  | existing :: rest =>
    if same det existing then
      some ((if existing.score < det.score then det else existing) :: rest)
    else
      match insertWith same det rest with
      | some rest' => some (existing :: rest')
      | none => none

/-- One step of the deduplication scan (cv_analysis.py lines 210-230):
handle candidate `det` against the accepted list, appending it when nothing
matched. -/
def dedupStepWith (same : Detection → Detection → Bool)
    (acc : List Detection) (det : Detection) : List Detection :=
  match insertWith same det acc with
  | some acc' => acc'
  | none => acc ++ [det]

/-- Linear scan building the accepted list incrementally. -/
def dedupWith (same : Detection → Detection → Bool)
    (candidates : List Detection) : List Detection :=
  candidates.foldl (dedupStepWith same) []

/-- The deduplication pass of `analyze_image_combined`
(cv_analysis.py lines 207-231): the scan instantiated with the source's
"same object" test. -/
def dedup (candidates : List Detection) : List Detection :=
  dedupWith sameObject candidates

/-! ### A kernel-computable mirror of the IoU threshold test

`Rat` division does not reduce in the kernel, so concrete runs of `dedup`
are evaluated through an integer-arithmetic version of the
`iou ... > 0.5` test, proved equal to the source's test. -/

/-- Integer form of `0.5 < iou b1 b2`: the boxes overlap with positive area
and `10^6 * union + 1 < 2 * 10^6 * inter` (i.e. `inter/(union + 10^-6) >
1/2` after clearing denominators). -/
def iouGtHalfB (box1 box2 : Box) : Bool :=
  if min box1.xmax box2.xmax ≤ max box1.xmin box2.xmin ∨
      min box1.ymax box2.ymax ≤ max box1.ymin box2.ymin then false
  else decide (1000000 * unionArea box1 box2 + 1 <
    2000000 * interArea box1 box2)

/-- Kernel-computable form of the "same object" test. -/
def sameObjectB (det existing : Detection) : Bool :=
  similarLabel det existing && iouGtHalfB det.box existing.box

/-! ## JSON values and Python dict primitives
(for `src/chains/analyst_chain.py`) -/

/-- A JSON/Python-literal value, as produced by `json.loads` or
`ast.literal_eval`. -/
inductive JValue where
  | null
  | bool (b : Bool)
  | num (q : ℚ)
  | str (s : String)
  | arr (elems : List JValue)
  | obj (fields : List (String × JValue))
  deriving Repr

/-- `k in d` for a Python dict (modelled as an association list with the
insertion-order keys; Python dicts have distinct keys, and every lemma below
is also sound for lists with repeated keys under first-occurrence lookup). -/
def hasKey (o : List (String × JValue)) (k : String) : Bool :=
  o.any fun p => p.1 == k

/-- `d[k]` read for a Python dict (first occurrence). -/
def pyGet (o : List (String × JValue)) (k : String) : Option JValue :=
  (o.find? fun p => p.1 == k).map fun p => p.2

/-- `d[k] = v` for a Python dict: overwrite the first binding of `k`, or
append it. -/
def pySet (o : List (String × JValue)) (k : String) (v : JValue) :
    List (String × JValue) :=
  match o with
  | [] => [(k, v)]
  | (k', v') :: rest =>
    if k' == k then (k, v) :: rest else (k', v') :: pySet rest k v

/-- Python truthiness of a JSON value. -/
def pyTruthy : JValue → Bool
  | .null => false
  | .bool b => b
  | .num q => decide (q ≠ 0)
  | .str s => !(s == "")
  | .arr l => !l.isEmpty
  | .obj l => !l.isEmpty

/-- Python `len`: defined for strings, lists and dicts; `none` models the
`TypeError` raised on other values. -/
def pyLen : JValue → Option Nat
  | .str s => some s.length
  | .arr l => some l.length
  | .obj l => some l.length
  | _ => none

/-! ## The extraction cascade `extract_report_dict`
(`src/chains/analyst_chain.py` lines 110-170)

The standard-library calls inside the cascade — `json.loads`, `re.findall`,
`ast.literal_eval` and the `"summary"` regex search — are external
collaborators, modelled as oracle functions collected in `PyLibs`; `none`
models a raised exception.  The repository's own control flow around them is
embedded exactly. -/

/-- The two regex patterns of `json_patterns` (analyst_chain.py lines
130-133): the non-greedy brace block containing `"summary"` then
`"issues"`, and the non-greedy any-content brace block. -/
inductive JsonPat where
  | withKeys
  | anyBlock
  deriving Repr, DecidableEq

/-- The standard-library oracles used by `extract_report_dict`. -/
structure PyLibs where
  /-- `json.loads`; `none` models a raised exception. -/
  jsonLoads : String → Option JValue
  /-- `re.findall(pattern, text)`. -/
  reFindall : JsonPat → String → List String
  /-- `ast.literal_eval`; `none` models a raised exception. -/
  astEval : String → Option JValue
  /-- `re.search(r'"summary":\s*"([^"]*)"', text)`, first capture group. -/
  reSummary : String → Option String

/-- Stage-2 handling of one regex match (analyst_chain.py lines 137-153):
strict JSON parse; only when that parse RAISES, fall back to
`ast.literal_eval`; accept only a dict carrying both keys. -/
def tryMatch (libs : PyLibs) (m : String) :
    Option (List (String × JValue)) :=
  match libs.jsonLoads m with
  | some (.obj o) =>
    if hasKey o "summary" && hasKey o "issues" then some o else none
  | some _ => none
  | none =>
    match libs.astEval m with
    | some (.obj o) =>
      if hasKey o "summary" && hasKey o "issues" then some o else none
    | _ => none

/-- Scan the matches of one pattern, returning the first accepted dict. -/
def tryMatches (libs : PyLibs) : List String → Option (List (String × JValue))
  | [] => none
  | m :: rest =>
    match tryMatch libs m with
    | some o => some o
    | none => tryMatches libs rest

/-- Scan the patterns in order (analyst_chain.py lines 135-153). -/
def tryPatterns (libs : PyLibs) (text : String) :
    List JsonPat → Option (List (String × JValue))
  | [] => none
  | p :: rest =>
    match tryMatches libs (libs.reFindall p text) with
    | some o => some o
    | none => tryPatterns libs text rest

/-- The ultimate fallback dict (analyst_chain.py lines 167-170). -/
def fallbackReport : List (String × JValue) :=
  [("summary", .str "Could not parse AI analysis. The detection data may not contain recognizable infrastructure issues."),
    ("issues", .arr [])]

/-- Stage 1 (analyst_chain.py lines 121-127): direct JSON parse of the
stripped text, accepted only when it yields a dict with both keys. -/
def acceptDirect (libs : PyLibs) (text : String) :
    Option (List (String × JValue)) :=
  match libs.jsonLoads text with
  | some (.obj o) =>
    if hasKey o "summary" && hasKey o "issues" then some o else none
  | _ => none

/-- Embedding of `extract_report_dict` (analyst_chain.py lines 110-170). -/
def extract_report_dict (libs : PyLibs) (text0 : String) :
    List (String × JValue) :=
  let text := pyStrip text0
  match acceptDirect libs text with
  | some o => o
  | none =>
    match tryPatterns libs text [JsonPat.withKeys, JsonPat.anyBlock] with
    | some o => o
    | none =>
      match libs.reSummary text with
      | some s => [("summary", .str s), ("issues", .arr [])]
      | none => fallbackReport

/-! ## The report generator `generate_report`
(`src/chains/analyst_chain.py` lines 213-285) -/

/-- The dict returned for an empty detection list
(analyst_chain.py lines 227-230). -/
def noObjectsReport : List (String × JValue) :=
  [("summary", .str "No objects detected. This may be due to poor image quality or empty scene."),
    ("issues", .arr [])]

/-- The dict built by the `except` handler of `generate_report`
(analyst_chain.py lines 282-285). -/
def errorReport (msg : String) : List (String × JValue) :=
  [("summary", .str ("Error: LLM chain failed - " ++ msg)),
    ("issues", .arr [])]

/-- The consistency-repair step (analyst_chain.py lines 274-276):
`if result['issues'] and 'no' in result['summary'].lower(): result['summary']
= f"Found {len(result['issues'])} infrastructure issues requiring
attention."`.  `none` models an exception escaping to the enclosing `try`
(KeyError on a missing key, AttributeError when `summary` is not a string,
TypeError when `len` is applied to an unsized value). -/
def repairResult (r : List (String × JValue)) :
    Option (List (String × JValue)) :=
  match pyGet r "issues" with
  | none => none
  | some iv =>
    if pyTruthy iv then
      match pyGet r "summary" with
      | some (.str s) =>
        if containsSub "no".data (pyLower s).data then
          match pyLen iv with
          | some n =>
            some (pySet r "summary" (.str
              ("Found " ++ natStr n ++ " infrastructure issues requiring attention.")))
          | none => none
        else some r
      | some _ => none
      | none => none
    else some r

/-- Result of a `generate_report` run; `llmCalled` records whether the
language-model chain was invoked. -/
structure GenResult where
  report : List (String × JValue)
  llmCalled : Bool
  deriving Repr

/-- Embedding of `generate_report` (analyst_chain.py lines 213-285).
`resp` is the oracle for `analysis_chain.invoke`'s response text
(`.error e` models an exception raised during the round trip).  The source
calls `extract_report_dict` twice on the same text (lines 263 and 273);
the function is pure, so one call models both. -/
def generate_report (libs : PyLibs) (dets : List Detection)
    (resp : Except String String) : GenResult :=
  if dets.isEmpty then
    ⟨noObjectsReport, false⟩
  else
    match resp with
    | .error e => ⟨errorReport e, true⟩
    | .ok text =>
      match repairResult (extract_report_dict libs text) with
      | some r => ⟨r, true⟩
      | none => ⟨errorReport "exception while validating the parsed result", true⟩

/-! ## The imagery fetcher (`src/utils/fetcher.py`) -/

/-- The observable parts of a `requests.get` response. -/
structure HttpResp where
  status : Nat
  contentType : String
  contentSize : Nat
  deriving Repr, DecidableEq

/-- External collaborators of `fetch_street_view_image`: the
`STREET_VIEW_API_KEY` environment variable and the HTTP stack (`.error`
models a transport exception: timeout, connection error, ...). -/
structure FetchEnv where
  apiKey : Option String
  resp : Except Unit HttpResp

/-- Result of a fetch run; `httpCalled` records whether the HTTP GET to the
imagery provider was issued. -/
structure FetchResult where
  path : Option String
  httpCalled : Bool
  deriving Repr, DecidableEq

/-- Embedding of `fetch_street_view_image` (fetcher.py lines 7-91).  The
coordinates are interpolated into the request's `location` parameter only;
no branch of the function inspects them. -/
def fetch_street_view_image (env : FetchEnv) (_latitude _longitude : ℚ)
    (savePath : String) : FetchResult :=
  match env.apiKey with
  | none => ⟨none, false⟩
  | some _ =>
    match env.resp with
    | .error _ => ⟨none, true⟩
    | .ok r =>
      if r.status = 200 then
        if containsSub "image".data (pyLower r.contentType).data then
          if r.contentSize > 0 then ⟨some savePath, true⟩
          else ⟨none, true⟩
        else ⟨none, true⟩
      else ⟨none, true⟩

/-- Embedding of `validate_coordinates` (fetcher.py lines 124-150). -/
def validate_coordinates (latitude longitude : ℚ) : Bool :=
  if ¬ (-90 ≤ latitude ∧ latitude ≤ 90) then false
  else if ¬ (-180 ≤ longitude ∧ longitude ≤ 180) then false
  else true

/-! ## The scan orchestrator (`src/utils/scan_location.py`) -/

/-- The arguments `main` passes to `store_scan_data`
(scan_location.py lines 121-129). -/
structure StoreArgs where
  latitude : ℚ
  longitude : ℚ
  image_url : String
  annotated_image_url : String
  detection_results : List Detection
  llm_report_text : String
  llm_report_structured : List (String × JValue)

/-- External collaborators of one orchestration run. -/
structure ScanEnv where
  /-- Environment and HTTP stack seen by `fetch_street_view_image`. -/
  fetchEnv : FetchEnv
  /-- `upload_image_to_supabase`: public URL, or `None` on failure. -/
  upload : String → Option String
  /-- `analyze_image_combined` output (never raises to the caller). -/
  detections : List Detection
  /-- `draw_bounding_boxes` success flag. -/
  drawOk : Bool
  /-- `generate_report` output (a dict; never raises to the caller). -/
  reportResult : List (String × JValue)
  /-- `json.dumps`. -/
  dumps : List (String × JValue) → String
  /-- `store_scan_data`: truthiness of the returned row (`False` models
  `None`). -/
  store : StoreArgs → Bool

/-- Trace of one orchestration run: outcome, whether the fetcher was
invoked, the arguments of each storage upload in order, and the arguments
of the database insert when one was attempted. -/
structure RunResult where
  success : Bool
  fetchCalled : Bool
  uploadCalls : List String
  storeArg : Option StoreArgs

namespace ScanLocation

/-- Embedding of `main` (scan_location.py lines 17-169) along the
exception-free executions (every collaborator failure the source handles is
a returned `None`/`False` here; the cleanup step touches only scratch files
and is not modelled). -/
def main (env : ScanEnv) (lat lon : ℚ) : RunResult :=
  if validate_coordinates lat lon = false then
    ⟨false, false, [], none⟩
  else
    match (fetch_street_view_image env.fetchEnv lat lon "latest_scan.jpg").path with
    | none => ⟨false, true, [], none⟩
    | some imagePath =>
      if imagePath == "" then ⟨false, true, [], none⟩
      else
        match env.upload imagePath with
        | none => ⟨false, true, [imagePath], none⟩
        | some url =>
          if url == "" then ⟨false, true, [imagePath], none⟩
          else
            let annotationSuccess := env.drawOk
            let uploadsDone :=
              if annotationSuccess then [imagePath, "latest_scan_annotated.jpg"]
              else [imagePath]
            let annotatedUpload :=
              if annotationSuccess then env.upload "latest_scan_annotated.jpg"
              else some url
            let annotatedUrl :=
              match annotatedUpload with
              | some s => if s == "" then url else s
              | none => url
            let llmReport :=
              if env.reportResult.isEmpty then
                [("summary", JValue.str "AI analysis encountered an error, but object detection was successful."),
                  ("issues", JValue.arr [])]
              else env.reportResult
            let args : StoreArgs :=
              ⟨lat, lon, url, annotatedUrl, env.detections,
                env.dumps llmReport, llmReport⟩
            ⟨env.store args, true, uploadsDone, some args⟩

end ScanLocation

/-! ## Spec-modelled comparison predicate and concrete witness environments -/

/-- Modelled from the spec's words (for comparison with the source): two
detections are the same object when their labels are equal
case-insensitively OR they SHARE at least one whitespace-delimited token in
either direction, AND their IoU exceeds 0.5. -/
def specSameObject (det existing : Detection) : Bool :=
  (pyLower det.label == pyLower existing.label
      || (pyTokens (pyLower existing.label)).any
          (fun w => (pyTokens (pyLower det.label)).contains w)
      || (pyTokens (pyLower det.label)).any
          (fun w => (pyTokens (pyLower existing.label)).contains w))
    && decide ((1 : ℚ) / 2 < iou det.box existing.box)

/-- Kernel-computable form of `specSameObject`. -/
def specSameObjectB (det existing : Detection) : Bool :=
  (pyLower det.label == pyLower existing.label
      || (pyTokens (pyLower existing.label)).any
          (fun w => (pyTokens (pyLower det.label)).contains w)
      || (pyTokens (pyLower det.label)).any
          (fun w => (pyTokens (pyLower existing.label)).contains w))
    && iouGtHalfB det.box existing.box

/-- Stage-1 oracle for the cascade witness: the JSON parser recognizes the
exact text `t1` as a conforming dict; everything else fails. -/
def libsDirect : PyLibs where
  jsonLoads := fun s =>
    if s == "t1" then some (.obj [("summary", .str "x"), ("issues", .arr [])])
    else none
  reFindall := fun _ _ => []
  astEval := fun _ => none
  reSummary := fun _ => none

/-- All-failing oracles for the cascade witness. -/
def libsFailing : PyLibs where
  jsonLoads := fun _ => none
  reFindall := fun _ _ => []
  astEval := fun _ => none
  reSummary := fun _ => none


/-- Standard-library oracles for the invariant witness: the parser returns
a dict whose summary claims "No issues" while `issues` is non-empty,
forcing the repair. -/
def libsMismatch : PyLibs where
  jsonLoads := fun _ =>
    some (.obj [("summary", .str "No issues found"),
      ("issues", .arr [.str "pothole"])])
  reFindall := fun _ _ => []
  astEval := fun _ => none
  reSummary := fun _ => none


/-- Bare fetch environment used by the C6 witness. -/
def fetchEnvOk : FetchEnv :=
  ⟨some "key", .ok ⟨200, "image/jpeg", 5⟩⟩

/-- Orchestration environment whose original-image upload fails. -/
def scanEnvUploadFail : ScanEnv where
  fetchEnv := fetchEnvOk
  upload := fun _ => none
  detections := []
  drawOk := true
  reportResult := noObjectsReport
  dumps := fun _ => "serialized report"
  store := fun _ => true


/-- Orchestration environment whose annotation step fails. -/
def scanEnvDrawFail : ScanEnv where
  fetchEnv := fetchEnvOk
  upload := fun _ => some "http://storage/original.jpg"
  detections := []
  drawOk := false
  reportResult := noObjectsReport
  dumps := fun _ => "serialized report"
  store := fun _ => true



/-! ## Lemmas about the deduplication scan -/

lemma interArea_pos {box1 box2 : Box}
    (hx : max box1.xmin box2.xmin < min box1.xmax box2.xmax)
    (hy : max box1.ymin box2.ymin < min box1.ymax box2.ymax) :
    1 ≤ interArea box1 box2 := by
  unfold interArea
  nlinarith [hx, hy]

lemma interArea_le_unionArea {box1 box2 : Box}
    (hx : max box1.xmin box2.xmin < min box1.xmax box2.xmax)
    (hy : max box1.ymin box2.ymin < min box1.ymax box2.ymax) :
    interArea box1 box2 ≤ unionArea box1 box2 := by
  have hx1 : min box1.xmax box2.xmax - max box1.xmin box2.xmin ≤
      box1.xmax - box1.xmin := by
    have := min_le_left box1.xmax box2.xmax
    have := le_max_left box1.xmin box2.xmin
    omega
  have hx2 : min box1.xmax box2.xmax - max box1.xmin box2.xmin ≤
      box2.xmax - box2.xmin := by
    have := min_le_right box1.xmax box2.xmax
    have := le_max_right box1.xmin box2.xmin
    omega
  have hy1 : min box1.ymax box2.ymax - max box1.ymin box2.ymin ≤
      box1.ymax - box1.ymin := by
    have := min_le_left box1.ymax box2.ymax
    have := le_max_left box1.ymin box2.ymin
    omega
  have hy2 : min box1.ymax box2.ymax - max box1.ymin box2.ymin ≤
      box2.ymax - box2.ymin := by
    have := min_le_right box1.ymax box2.ymax
    have := le_max_right box1.ymin box2.ymin
    omega
  unfold unionArea interArea
  nlinarith [hx, hy, hx1, hx2, hy1, hy2]

/-- The source's rational IoU threshold test agrees with the integer
mirror. -/
lemma iou_gt_half_iff (box1 box2 : Box) :
    ((1 : ℚ) / 2 < iou box1 box2) ↔ iouGtHalfB box1 box2 = true := by
  by_cases hov : min box1.xmax box2.xmax ≤ max box1.xmin box2.xmin ∨
      min box1.ymax box2.ymax ≤ max box1.ymin box2.ymin
  · simp only [iou, iouGtHalfB, if_pos hov]
    norm_num
  · push_neg at hov
    obtain ⟨hx, hy⟩ := hov
    have hI := interArea_pos hx hy
    have hU := interArea_le_unionArea hx hy
    have hUQ : (1 : ℚ) ≤ (unionArea box1 box2 : ℚ) := by
      exact_mod_cast hI.trans hU
    have hpos : (0 : ℚ) < (unionArea box1 box2 : ℚ) + 1 / 1000000 := by
      linarith
    have hcond : ¬ (min box1.xmax box2.xmax ≤ max box1.xmin box2.xmin ∨
        min box1.ymax box2.ymax ≤ max box1.ymin box2.ymin) := by
      push_neg
      exact ⟨hx, hy⟩
    simp only [iou, iouGtHalfB, if_neg hcond, decide_eq_true_eq]
    rw [div_lt_div_iff₀ (by norm_num) hpos]
    constructor
    · intro h
      have h2 : (1000000 * unionArea box1 box2 + 1 : ℚ) <
          2000000 * interArea box1 box2 := by linarith
      exact_mod_cast h2
    · intro h
      have h2 : (1000000 * unionArea box1 box2 + 1 : ℚ) <
          2000000 * interArea box1 box2 := by exact_mod_cast h
      push_cast at h2
      linarith

lemma sameObject_eq_B : sameObject = sameObjectB := by
  funext det existing
  unfold sameObject sameObjectB
  rw [Bool.eq_iff_iff]
  simp only [Bool.and_eq_true, decide_eq_true_eq, iou_gt_half_iff]

lemma dedup_eq_B : dedup = dedupWith sameObjectB := by
  unfold dedup
  rw [sameObject_eq_B]


lemma insertWith_mem {same : Detection → Detection → Bool} {d : Detection} :
    ∀ {acc acc' : List Detection}, insertWith same d acc = some acc' →
      ∀ x ∈ acc', x ∈ acc ∨ x = d := by
  intro acc
  induction acc with
  | nil => intro acc' h; simp [insertWith] at h
  | cons e rest ih =>
    intro acc' h x hx
    rw [insertWith] at h
    by_cases hse : same d e
    · rw [if_pos hse] at h
      injection h with h
      subst h
      rcases List.mem_cons.mp hx with hx | hx
      · by_cases hsc : e.score < d.score
        · right; rw [if_pos hsc] at hx; exact hx
        · left; rw [if_neg hsc] at hx; exact hx ▸ List.mem_cons_self e rest
      · exact Or.inl (List.mem_cons_of_mem e hx)
    · rw [if_neg hse] at h
      cases hrec : insertWith same d rest with
      | none => rw [hrec] at h; cases h
      | some rest' =>
        rw [hrec] at h
        injection h with h
        subst h
        rcases List.mem_cons.mp hx with hx | hx
        · exact Or.inl (hx ▸ List.mem_cons_self e rest)
        · rcases ih hrec x hx with h' | h'
          · exact Or.inl (List.mem_cons_of_mem e h')
          · exact Or.inr h'

lemma insertWith_length {same : Detection → Detection → Bool} {d : Detection} :
    ∀ {acc acc' : List Detection}, insertWith same d acc = some acc' →
      acc'.length = acc.length := by
  intro acc
  induction acc with
  | nil => intro acc' h; simp [insertWith] at h
  | cons e rest ih =>
    intro acc' h
    rw [insertWith] at h
    by_cases hse : same d e
    · rw [if_pos hse] at h
      injection h with h
      subst h
      simp
    · rw [if_neg hse] at h
      cases hrec : insertWith same d rest with
      | none => rw [hrec] at h; cases h
      | some rest' =>
        rw [hrec] at h
        injection h with h
        subst h
        simp [ih hrec]

lemma dedupWith_fold_mem {same : Detection → Detection → Bool} :
    ∀ (l acc : List Detection),
      (∀ x ∈ List.foldl (dedupStepWith same) acc l, x ∈ acc ∨ x ∈ l) ∧
        (List.foldl (dedupStepWith same) acc l).length ≤
          acc.length + l.length := by
  intro l
  induction l with
  | nil => intro acc; simp
  | cons d rest ih =>
    intro acc
    rw [List.foldl_cons]
    have step_mem : ∀ x ∈ dedupStepWith same acc d, x ∈ acc ∨ x = d := by
      intro x hx
      unfold dedupStepWith at hx
      cases hins : insertWith same d acc with
      | some acc' => rw [hins] at hx; exact insertWith_mem hins x hx
      | none =>
        rw [hins] at hx
        rcases List.mem_append.mp hx with hx | hx
        · exact Or.inl hx
        · exact Or.inr (List.mem_singleton.mp hx)
    have step_len : (dedupStepWith same acc d).length ≤ acc.length + 1 := by
      unfold dedupStepWith
      cases hins : insertWith same d acc with
      | some acc' => rw [insertWith_length hins]; omega
      | none => simp
    constructor
    · intro x hx
      rcases (ih (dedupStepWith same acc d)).1 x hx with h' | h'
      · rcases step_mem x h' with h'' | h''
        · exact Or.inl h''
        · exact Or.inr (h'' ▸ List.mem_cons_self d rest)
      · exact Or.inr (List.mem_cons_of_mem d h')
    · calc (List.foldl (dedupStepWith same) (dedupStepWith same acc d) rest).length
          ≤ (dedupStepWith same acc d).length + rest.length :=
            (ih (dedupStepWith same acc d)).2
      _ ≤ acc.length + 1 + rest.length := by omega
      _ = acc.length + (d :: rest).length := by simp; omega

/-- C10: the deduplication pass only selects, never fabricates or alters:
every detection in the output is an element of the candidate pool
(label, score and box unchanged), and the output is no longer than the
input. -/
theorem dedup_selects (candidates : List Detection) :
    (∀ d ∈ dedup candidates, d ∈ candidates) ∧
      (dedup candidates).length ≤ candidates.length := by
  unfold dedup dedupWith
  obtain ⟨hmem, hlen⟩ := @dedupWith_fold_mem sameObject candidates []
  refine ⟨fun d hd => ?_, by simpa using hlen⟩
  rcases hmem d hd with h | h
  · cases h
  · exact h

/-! ## C1: the "same object" rule of the deduplication pass -/

lemma specSameObject_eq_B : specSameObject = specSameObjectB := by
  funext det existing
  unfold specSameObject specSameObjectB
  rw [Bool.eq_iff_iff]
  simp only [Bool.and_eq_true, decide_eq_true_eq, iou_gt_half_iff]

lemma insertWith_none {same : Detection → Detection → Bool} {d : Detection} :
    ∀ {acc : List Detection}, (∀ e ∈ acc, same d e = false) →
      insertWith same d acc = none := by
  intro acc
  induction acc with
  | nil => intro _; rfl
  | cons e rest ih =>
    intro h
    rw [insertWith, if_neg (by simp [h e (List.mem_cons_self e rest)]),
      ih fun x hx => h x (List.mem_cons_of_mem e hx)]

lemma insertWith_first {same : Detection → Detection → Bool}
    {d e : Detection} {acc2 : List Detection} :
    ∀ {acc1 : List Detection}, (∀ x ∈ acc1, same d x = false) →
      same d e = true →
      insertWith same d (acc1 ++ e :: acc2) =
        some (acc1 ++ (if e.score < d.score then d else e) :: acc2) := by
  intro acc1
  induction acc1 with
  | nil => intro _ he; simp [insertWith, he]
  | cons x rest ih =>
    intro h he
    rw [List.cons_append, insertWith,
      if_neg (by simp [h x (List.mem_cons_self x rest)]),
      ih (fun y hy => h y (List.mem_cons_of_mem x hy)) he]
    rfl

/-- C1 counterexample: the source's label-similarity test uses token
SUBSTRING containment, not token sharing.  On the candidates
`[{"category", 0.9, B}, {"cat", 0.5, B}]` (identical boxes `B`), the
labels are unequal and share no whitespace-delimited token, so the claimed
rule appends both; the code merges them because the token `"cat"` is a
substring of `"category"`. -/
theorem dedup_match_claim_cex :
    dedup [⟨"category", mkRat 9 10, ⟨0, 0, 10, 10⟩⟩,
        ⟨"cat", mkRat 1 2, ⟨0, 0, 10, 10⟩⟩] =
      [⟨"category", mkRat 9 10, ⟨0, 0, 10, 10⟩⟩] ∧
    dedupWith specSameObject
        [⟨"category", mkRat 9 10, ⟨0, 0, 10, 10⟩⟩,
          ⟨"cat", mkRat 1 2, ⟨0, 0, 10, 10⟩⟩] =
      [⟨"category", mkRat 9 10, ⟨0, 0, 10, 10⟩⟩,
        ⟨"cat", mkRat 1 2, ⟨0, 0, 10, 10⟩⟩] ∧
    dedup [⟨"category", mkRat 9 10, ⟨0, 0, 10, 10⟩⟩,
        ⟨"cat", mkRat 1 2, ⟨0, 0, 10, 10⟩⟩] ≠
      dedupWith specSameObject
        [⟨"category", mkRat 9 10, ⟨0, 0, 10, 10⟩⟩,
          ⟨"cat", mkRat 1 2, ⟨0, 0, 10, 10⟩⟩] := by
  rw [dedup_eq_B, specSameObject_eq_B]
  refine ⟨by decide, by decide, by decide⟩

/-- C1 (amended): in the deduplication pass, candidate `d` and accepted
detection `e` are treated as the same object iff (their lowercased labels
are equal, OR some whitespace-delimited token of either lowercased label
occurs as a contiguous substring of the other lowercased label) AND the IoU
of their boxes exceeds 0.5; when the first such match is found the
higher-scoring of `d` and `e` is kept (replacing `e` in place exactly when
`d`'s score is strictly higher) and `d` is not separately appended; when no
accepted detection matches, `d` is appended. -/
theorem dedup_match_characterization :
    (∀ d e : Detection, sameObject d e = true ↔
        ((pyLower d.label = pyLower e.label
            ∨ (∃ w ∈ pyTokens (pyLower e.label),
                containsSub w.data (pyLower d.label).data = true)
            ∨ (∃ w ∈ pyTokens (pyLower d.label),
                containsSub w.data (pyLower e.label).data = true))
          ∧ (1 : ℚ) / 2 < iou d.box e.box))
    ∧ (∀ (acc : List Detection) (d : Detection),
        (∀ e ∈ acc, sameObject d e = false) →
          dedupStepWith sameObject acc d = acc ++ [d])
    ∧ (∀ (acc1 : List Detection) (e : Detection) (acc2 : List Detection)
          (d : Detection),
        (∀ x ∈ acc1, sameObject d x = false) → sameObject d e = true →
          dedupStepWith sameObject (acc1 ++ e :: acc2) d =
            acc1 ++ (if e.score < d.score then d else e) :: acc2) := by
  refine ⟨fun d e => ?_, fun acc d h => ?_, fun acc1 e acc2 d h he => ?_⟩
  · unfold sameObject similarLabel
    simp only [Bool.and_eq_true, Bool.or_eq_true, decide_eq_true_eq,
      List.any_eq_true, beq_iff_eq, or_assoc]
  · unfold dedupStepWith
    rw [insertWith_none h]
  · unfold dedupStepWith
    rw [insertWith_first h he]

/-- C1 amended-theorem witness: a concrete run of each clause. -/
theorem dedup_match_characterization_witness :
    sameObject ⟨"cat", mkRat 1 2, ⟨0, 0, 10, 10⟩⟩
        ⟨"category", mkRat 9 10, ⟨0, 0, 10, 10⟩⟩ = true ∧
    dedupStepWith sameObject [⟨"dog", mkRat 1 2, ⟨0, 0, 10, 10⟩⟩]
        ⟨"cat", mkRat 1 2, ⟨50, 50, 60, 60⟩⟩ =
      [⟨"dog", mkRat 1 2, ⟨0, 0, 10, 10⟩⟩,
        ⟨"cat", mkRat 1 2, ⟨50, 50, 60, 60⟩⟩] ∧
    dedupStepWith sameObject
        ([⟨"dog", mkRat 1 2, ⟨50, 50, 60, 60⟩⟩] ++
          ⟨"cat", mkRat 1 2, ⟨0, 0, 10, 10⟩⟩ :: [])
        ⟨"cat", mkRat 9 10, ⟨0, 0, 10, 10⟩⟩ =
      [⟨"dog", mkRat 1 2, ⟨50, 50, 60, 60⟩⟩] ++
        (if (mkRat 1 2 : ℚ) < mkRat 9 10
          then (⟨"cat", mkRat 9 10, ⟨0, 0, 10, 10⟩⟩ : Detection)
          else ⟨"cat", mkRat 1 2, ⟨0, 0, 10, 10⟩⟩) :: [] := by
  refine ⟨?_, ?_, ?_⟩
  · exact (dedup_match_characterization.1 _ _).mpr
      (by
        constructor
        · right; right
          refine ⟨"cat", by decide, by decide⟩
        · rw [iou_gt_half_iff]; decide)
  · exact dedup_match_characterization.2.1 _ _
      (by simp only [sameObject_eq_B]; decide)
  · exact dedup_match_characterization.2.2 _ _ _ _
      (by simp only [sameObject_eq_B]; decide)
      (by simp only [sameObject_eq_B]; decide)

/-! ## C2: idempotence of the deduplication pass -/

lemma dedup_fold_fixpoint :
    ∀ (l acc : List Detection),
      (∀ d ∈ l, ∀ e ∈ acc, sameObject d e = false) →
      l.Pairwise (fun a b => sameObject b a = false) →
      List.foldl (dedupStepWith sameObject) acc l = acc ++ l := by
  intro l
  induction l with
  | nil => intro acc _ _; simp
  | cons d rest ih =>
    intro acc hacc hpw
    rw [List.foldl_cons]
    have hstep : dedupStepWith sameObject acc d = acc ++ [d] := by
      unfold dedupStepWith
      rw [insertWith_none (hacc d (List.mem_cons_self d rest))]
    rw [hstep, ih (acc ++ [d])
      (by
        intro d' hd' e he
        rcases List.mem_append.mp he with he | he
        · exact hacc d' (List.mem_cons_of_mem d hd') e he
        · rw [List.mem_singleton.mp he]
          exact (List.pairwise_cons.mp hpw).1 d' hd')
      (List.pairwise_cons.mp hpw).2]
    simp

/-- C2 counterexample: deduplication is NOT idempotent.  On
`[e1, e2, d]` with `e1 = {"cat", 0.5, [0,12]×[0,1]}`,
`e2 = {"cat", 0.5, [4,16]×[0,1]}`, `d = {"cat", 0.9, [2,14]×[0,1]}`, the
first pass replaces `e1` in place by the higher-scoring `d`, which also
overlaps `e2`; the output `[d, e2]` contains a matching pair, and a second
pass merges it. -/
theorem dedup_idempotent_cex :
    dedup [⟨"cat", mkRat 1 2, ⟨0, 0, 12, 1⟩⟩, ⟨"cat", mkRat 1 2, ⟨4, 0, 16, 1⟩⟩,
        ⟨"cat", mkRat 9 10, ⟨2, 0, 14, 1⟩⟩] =
      [⟨"cat", mkRat 9 10, ⟨2, 0, 14, 1⟩⟩, ⟨"cat", mkRat 1 2, ⟨4, 0, 16, 1⟩⟩] ∧
    dedup (dedup [⟨"cat", mkRat 1 2, ⟨0, 0, 12, 1⟩⟩,
        ⟨"cat", mkRat 1 2, ⟨4, 0, 16, 1⟩⟩,
        ⟨"cat", mkRat 9 10, ⟨2, 0, 14, 1⟩⟩]) ≠
      dedup [⟨"cat", mkRat 1 2, ⟨0, 0, 12, 1⟩⟩, ⟨"cat", mkRat 1 2, ⟨4, 0, 16, 1⟩⟩,
        ⟨"cat", mkRat 9 10, ⟨2, 0, 14, 1⟩⟩] := by
  simp only [dedup_eq_B]
  refine ⟨by decide, by decide⟩

/-- C2 (amended): the deduplication pass is idempotent on every input whose
first-pass output contains no matching pair (candidate versus
earlier-accepted detection, the direction the scan tests); in particular
any such pairwise non-matching list is a fixed point.  Unrestricted
idempotence fails, because an in-place score replacement can leave two
mutually matching detections in the output. -/
theorem dedup_idempotent_of_no_match (l : List Detection)
    (h : (dedup l).Pairwise fun a b => sameObject b a = false) :
    dedup (dedup l) = dedup l := by
  have := dedup_fold_fixpoint (dedup l) [] (by intro _ _ e he; cases he) h
  unfold dedup dedupWith
  unfold dedup dedupWith at this
  rw [this]
  simp

/-- C2 amended-theorem witness: a concrete three-candidate run whose output
is pairwise non-matching is unchanged by a second pass. -/
theorem dedup_idempotent_of_no_match_witness :
    dedup (dedup [⟨"pothole", mkRat 8 10, ⟨0, 0, 10, 10⟩⟩,
        ⟨"pothole", mkRat 6 10, ⟨2, 0, 12, 10⟩⟩,
        ⟨"truck", mkRat 9 10, ⟨50, 50, 90, 90⟩⟩]) =
      dedup [⟨"pothole", mkRat 8 10, ⟨0, 0, 10, 10⟩⟩,
        ⟨"pothole", mkRat 6 10, ⟨2, 0, 12, 10⟩⟩,
        ⟨"truck", mkRat 9 10, ⟨50, 50, 90, 90⟩⟩] :=
  dedup_idempotent_of_no_match _
    (by simp only [dedup_eq_B, sameObject_eq_B]; decide)

/-! ## C4: the IoU function -/

/-- C4 counterexample: for the positive-area box `B = [0,1]×[0,1]`,
`iou(B, B)` is `1/(1 + 10^-6) = 1000000/1000001`, not `1.0`: the `1e-6`
guard in the denominator keeps even the identical-boxes IoU strictly below
one. -/
theorem iou_self_cex :
    iou ⟨0, 0, 1, 1⟩ ⟨0, 0, 1, 1⟩ = 1000000 / 1000001 ∧
      iou ⟨0, 0, 1, 1⟩ ⟨0, 0, 1, 1⟩ ≠ 1 := by
  constructor <;> norm_num [iou, interArea, unionArea]

/-- C4 (amended): for every box with positive area,
`iou(b, b) = area/(area + 1e-6)`, which is within `1e-6` of `1.0` (but not
equal to it); for every pair with no positive-area intersection, `iou`
returns exactly `0.0`; and for every overlapping pair the returned value is
`inter/(union + 1e-6)`, within `1e-6` of `inter/union`. -/
theorem iou_spec :
    (∀ b : Box, b.xmin < b.xmax → b.ymin < b.ymax →
        iou b b =
          ((b.xmax - b.xmin) * (b.ymax - b.ymin) : ℚ) /
            (((b.xmax - b.xmin) * (b.ymax - b.ymin) : ℚ) + 1 / 1000000) ∧
          |iou b b - 1| < 1 / 1000000)
    ∧ (∀ box1 box2 : Box,
        (min box1.xmax box2.xmax ≤ max box1.xmin box2.xmin ∨
          min box1.ymax box2.ymax ≤ max box1.ymin box2.ymin) →
        iou box1 box2 = 0)
    ∧ (∀ box1 box2 : Box,
        max box1.xmin box2.xmin < min box1.xmax box2.xmax →
        max box1.ymin box2.ymin < min box1.ymax box2.ymax →
        iou box1 box2 =
          (interArea box1 box2 : ℚ) / ((unionArea box1 box2 : ℚ) + 1 / 1000000) ∧
          |iou box1 box2 -
            (interArea box1 box2 : ℚ) / (unionArea box1 box2 : ℚ)| ≤
            1 / 1000000) := by
  have eval_overlap : ∀ box1 box2 : Box,
      max box1.xmin box2.xmin < min box1.xmax box2.xmax →
      max box1.ymin box2.ymin < min box1.ymax box2.ymax →
      iou box1 box2 =
        (interArea box1 box2 : ℚ) / ((unionArea box1 box2 : ℚ) + 1 / 1000000) := by
    intro box1 box2 hx hy
    unfold iou
    rw [if_neg (by push_neg; exact ⟨hx, hy⟩)]
  refine ⟨fun b hx hy => ?_, fun box1 box2 h => ?_, fun box1 box2 hx hy => ?_⟩
  · have hx' : max b.xmin b.xmin < min b.xmax b.xmax := by
      simpa using hx
    have hy' : max b.ymin b.ymin < min b.ymax b.ymax := by
      simpa using hy
    have hself : interArea b b = (b.xmax - b.xmin) * (b.ymax - b.ymin) := by
      unfold interArea; simp
    have hunion : unionArea b b = (b.xmax - b.xmin) * (b.ymax - b.ymin) := by
      unfold unionArea; rw [hself]; ring
    have hval := eval_overlap b b hx' hy'
    rw [hself, hunion] at hval
    have hA : (1 : ℚ) ≤ ((b.xmax - b.xmin) * (b.ymax - b.ymin) : ℚ) := by
      have := interArea_pos hx' hy'
      rw [hself] at this
      exact_mod_cast this
    set A : ℚ := ((b.xmax - b.xmin) * (b.ymax - b.ymin) : ℚ) with hAdef
    have hpos : (0 : ℚ) < A + 1 / 1000000 := by linarith
    have hvalA : iou b b = A / (A + 1 / 1000000) := by
      rw [hval]; push_cast [hAdef]; ring_nf
    refine ⟨hvalA, ?_⟩
    rw [hvalA, abs_sub_lt_iff]
    constructor
    · have h1 : A / (A + 1 / 1000000) < 1 :=
        (div_lt_one hpos).mpr (by linarith)
      linarith
    · have h2 : (1 - 1 / 1000000 : ℚ) * (A + 1 / 1000000) < A := by nlinarith
      have h3 : (1 - 1 / 1000000 : ℚ) < A / (A + 1 / 1000000) :=
        (lt_div_iff₀ hpos).mpr h2
      linarith
  · unfold iou
    rw [if_pos h]
  · have hI : 1 ≤ interArea box1 box2 := interArea_pos hx hy
    have hU : interArea box1 box2 ≤ unionArea box1 box2 :=
      interArea_le_unionArea hx hy
    have hIQ : (1 : ℚ) ≤ (interArea box1 box2 : ℚ) := by exact_mod_cast hI
    have hUQ : (interArea box1 box2 : ℚ) ≤ (unionArea box1 box2 : ℚ) := by
      exact_mod_cast hU
    have hU1 : (1 : ℚ) ≤ (unionArea box1 box2 : ℚ) := le_trans hIQ hUQ
    set I : ℚ := (interArea box1 box2 : ℚ)
    set U : ℚ := (unionArea box1 box2 : ℚ)
    have hU0 : (0 : ℚ) < U := by linarith
    have hpos : (0 : ℚ) < U + 1 / 1000000 := by linarith
    have hval := eval_overlap box1 box2 hx hy
    refine ⟨hval, ?_⟩
    rw [hval, abs_sub_comm, abs_of_nonneg
      (by
        have := div_le_div_of_nonneg_left (by linarith : (0:ℚ) ≤ I) hU0
          (by linarith : U ≤ U + 1 / 1000000)
        linarith)]
    rw [div_sub_div _ _ (ne_of_gt hU0) (ne_of_gt hpos)]
    rw [div_le_iff₀ (by positivity)]
    nlinarith

/-- C4 amended-theorem witness: the three clauses at the concrete boxes
`[0,1]²` (identical), `[0,1]²` vs `[5,6]²` (disjoint) and `[0,2]×[0,1]` vs
`[1,3]×[0,1]` (half overlap). -/
theorem iou_spec_witness :
    |iou ⟨0, 0, 1, 1⟩ ⟨0, 0, 1, 1⟩ - 1| < 1 / 1000000 ∧
    iou ⟨0, 0, 1, 1⟩ ⟨5, 5, 6, 6⟩ = 0 ∧
    |iou ⟨0, 0, 2, 1⟩ ⟨1, 0, 3, 1⟩ -
        (interArea ⟨0, 0, 2, 1⟩ ⟨1, 0, 3, 1⟩ : ℚ) /
          (unionArea ⟨0, 0, 2, 1⟩ ⟨1, 0, 3, 1⟩ : ℚ)| ≤ 1 / 1000000 :=
  ⟨(iou_spec.1 ⟨0, 0, 1, 1⟩ (by decide) (by decide)).2,
    iou_spec.2.1 ⟨0, 0, 1, 1⟩ ⟨5, 5, 6, 6⟩ (by decide),
    (iou_spec.2.2 ⟨0, 0, 2, 1⟩ ⟨1, 0, 3, 1⟩ (by decide) (by decide)).2⟩

/-! ## C5: the extraction cascade -/

lemma acceptDirect_keys {libs : PyLibs} {t : String}
    {o : List (String × JValue)} (h : acceptDirect libs t = some o) :
    hasKey o "summary" = true ∧ hasKey o "issues" = true := by
  unfold acceptDirect at h
  split at h
  next fields =>
    split at h
    next hk =>
      injection h with h
      subst h
      exact Bool.and_eq_true .. |>.mp hk
    next => cases h
  next => cases h

lemma tryMatch_keys {libs : PyLibs} {m : String}
    {o : List (String × JValue)} (h : tryMatch libs m = some o) :
    hasKey o "summary" = true ∧ hasKey o "issues" = true := by
  unfold tryMatch at h
  split at h
  next fields =>
    split at h
    next hk =>
      injection h with h
      subst h
      exact Bool.and_eq_true .. |>.mp hk
    next => cases h
  next => cases h
  next =>
    split at h
    next fields =>
      split at h
      next hk =>
        injection h with h
        subst h
        exact Bool.and_eq_true .. |>.mp hk
      next => cases h
    next => cases h

lemma tryMatches_keys {libs : PyLibs} :
    ∀ {ms : List String} {o : List (String × JValue)},
      tryMatches libs ms = some o →
      hasKey o "summary" = true ∧ hasKey o "issues" = true := by
  intro ms
  induction ms with
  | nil => intro o h; cases h
  | cons m rest ih =>
    intro o h
    rw [tryMatches] at h
    rcases hm : tryMatch libs m with _ | o'
    · rw [hm] at h; exact ih h
    · rw [hm] at h
      injection h with h
      subst h
      exact tryMatch_keys hm

lemma tryPatterns_keys {libs : PyLibs} {text : String} :
    ∀ {ps : List JsonPat} {o : List (String × JValue)},
      tryPatterns libs text ps = some o →
      hasKey o "summary" = true ∧ hasKey o "issues" = true := by
  intro ps
  induction ps with
  | nil => intro o h; cases h
  | cons p rest ih =>
    intro o h
    rw [tryPatterns] at h
    rcases hp : tryMatches libs (libs.reFindall p text) with _ | o'
    · rw [hp] at h; exact ih h
    · rw [hp] at h
      injection h with h
      subst h
      exact tryMatches_keys hp

lemma tryMatches_none {libs : PyLibs} :
    ∀ {ms : List String}, (∀ m ∈ ms, tryMatch libs m = none) →
      tryMatches libs ms = none := by
  intro ms
  induction ms with
  | nil => intro _; rfl
  | cons m rest ih =>
    intro h
    rw [tryMatches, h m (List.mem_cons_self m rest),
      ih fun x hx => h x (List.mem_cons_of_mem m hx)]

/-- The cascade always returns a dict carrying both keys (shared helper for
the claims below). -/
lemma extract_report_dict_keys (libs : PyLibs) (text : String) :
    hasKey (extract_report_dict libs text) "summary" = true ∧
      hasKey (extract_report_dict libs text) "issues" = true := by
  simp only [extract_report_dict]
  split
  next o h1 => exact acceptDirect_keys h1
  next =>
    split
    next o h2 => exact tryPatterns_keys h2
    next =>
      split
      next => exact ⟨rfl, rfl⟩
      next => exact ⟨rfl, rfl⟩

/-- C5: the extraction cascade: (1) a stripped response that the JSON
parser reads directly as a dict with both `summary` and `issues` keys is
returned unchanged by stage 1; (2) when stage 1 rejects, every regex match
of both patterns fails to produce a conforming dict (via strict JSON or the
literal fallback), and the summary regex finds nothing, the fixed fallback
dict is returned; (3) the result always carries both keys; (4) the fallback
dict has an empty issues list and a summary beginning
"Could not parse AI analysis". -/
theorem extract_cascade_spec :
    (∀ (libs : PyLibs) (text : String) (o : List (String × JValue)),
        libs.jsonLoads (pyStrip text) = some (.obj o) →
        hasKey o "summary" = true → hasKey o "issues" = true →
        extract_report_dict libs text = o)
    ∧ (∀ (libs : PyLibs) (text : String),
        acceptDirect libs (pyStrip text) = none →
        (∀ p : JsonPat, ∀ m ∈ libs.reFindall p (pyStrip text),
          tryMatch libs m = none) →
        libs.reSummary (pyStrip text) = none →
        extract_report_dict libs text = fallbackReport)
    ∧ (∀ (libs : PyLibs) (text : String),
        hasKey (extract_report_dict libs text) "summary" = true ∧
          hasKey (extract_report_dict libs text) "issues" = true)
    ∧ (pyGet fallbackReport "issues" = some (.arr []) ∧
        ∃ s, pyGet fallbackReport "summary" = some (.str s) ∧
          leadsWith "Could not parse AI analysis".data s.data = true) := by
  refine ⟨fun libs text o hj h1 h2 => ?_, fun libs text hd hm hs => ?_,
    extract_report_dict_keys, rfl, ?_⟩
  · have hacc : acceptDirect libs (pyStrip text) = some o := by
      unfold acceptDirect
      rw [hj]
      simp [h1, h2]
    simp only [extract_report_dict, hacc]
  · have htp : tryPatterns libs (pyStrip text)
        [JsonPat.withKeys, JsonPat.anyBlock] = none := by
      rw [tryPatterns, tryMatches_none (hm JsonPat.withKeys),
        tryPatterns, tryMatches_none (hm JsonPat.anyBlock)]
      rfl
    simp only [extract_report_dict, hd, htp, hs]
  · exact ⟨"Could not parse AI analysis. The detection data may not contain recognizable infrastructure issues.",
      rfl, by decide⟩

/-- C5 witness: a concrete stage-1 round trip and a concrete total-failure
fallback. -/
theorem extract_cascade_spec_witness :
    extract_report_dict libsDirect "t1" =
      [("summary", .str "x"), ("issues", .arr [])] ∧
    extract_report_dict libsFailing "garbage" = fallbackReport :=
  ⟨extract_cascade_spec.1 libsDirect "t1"
      [("summary", .str "x"), ("issues", .arr [])] rfl rfl rfl,
    extract_cascade_spec.2.1 libsFailing "garbage" rfl
      (fun p m hm => by cases hm) rfl⟩

/-! ## C3: the Report invariant of `generate_report` -/

lemma natChars_digit :
    ∀ n : Nat, ∀ c ∈ natChars n, ∃ d, d < 10 ∧ c = digitChar d := by
  intro n
  induction n using Nat.strong_induction_on with
  | _ n ih =>
    intro c hc
    by_cases h : n < 10
    · rw [natChars, dif_pos h] at hc
      exact ⟨n, h, (List.mem_singleton.mp hc).symm ▸ rfl⟩
    · rw [natChars, dif_neg h] at hc
      rcases List.mem_append.mp hc with hc | hc
      · exact ih (n / 10) (Nat.div_lt_self (by omega) (by omega)) c hc
      · exact ⟨n % 10, Nat.mod_lt _ (by omega),
          (List.mem_singleton.mp hc).symm ▸ rfl⟩

lemma natChars_ne_nil (n : Nat) : natChars n ≠ [] := by
  by_cases h : n < 10
  · rw [natChars, dif_pos h]; simp
  · rw [natChars, dif_neg h]; simp

lemma digitChar_facts {d : Nat} (hd : d < 10) :
    lowerChar (digitChar d) = digitChar d ∧ ('n' == digitChar d) = false ∧
      ('o' == digitChar d) = false := by
  interval_cases d <;> exact ⟨by decide, by decide, by decide⟩

lemma containsSub_no_of_no_n :
    ∀ l : List Char, (∀ c ∈ l, ('n' == c) = false) →
      containsSub "no".data l = false := by
  intro l
  induction l with
  | nil => intro _; rfl
  | cons c rest ih =>
    intro h
    show (leadsWith "no".data (c :: rest) || containsSub "no".data rest) = false
    rw [ih fun x hx => h x (List.mem_cons_of_mem c hx)]
    have hc := h c (List.mem_cons_self c rest)
    show ((('n' == c) && leadsWith "o".data rest) || false) = false
    rw [hc]
    rfl

lemma containsSub_no_append :
    ∀ xs ys : List Char,
      containsSub "no".data xs = false →
      containsSub "no".data ys = false →
      (∀ y, ys.head? = some y → ('o' == y) = false) →
      containsSub "no".data (xs ++ ys) = false := by
  intro xs
  induction xs with
  | nil => intro ys _ hy _; simpa using hy
  | cons a xs' ih =>
    intro ys hx hy hh
    have hx1 : containsSub "no".data xs' = false := by
      have h' := hx
      rw [containsSub] at h'
      exact (Bool.or_eq_false_iff.mp h').2
    rw [List.cons_append, containsSub,
      ih ys hx1 hy hh, Bool.or_false]
    cases xs' with
    | nil =>
      cases hys : ys with
      | nil =>
        show ((('n' == a)) && leadsWith "o".data []) = false
        simp [leadsWith]
      | cons y ys' =>
        have hy' := hh y (by rw [hys]; rfl)
        show ((('n' == a)) && (('o' == y) && leadsWith [] ys')) = false
        rw [hy']
        simp
    | cons c rest =>
      have hlead : leadsWith "no".data (a :: c :: rest) = false := by
        have h' := hx
        rw [containsSub] at h'
        exact (Bool.or_eq_false_iff.mp h').1
      show ((('n' == a)) && (('o' == c) && leadsWith [] (rest ++ ys))) = false
      have h2 : ((('n' == a)) && (('o' == c) && leadsWith [] rest)) = false := hlead
      simpa using h2

/-- The repaired summary "Found {n} infrastructure issues requiring
attention." never contains the substring "no" after lowercasing. -/
lemma found_summary_no_free (n : Nat) :
    containsSub "no".data
      (pyLower ("Found " ++ natStr n ++
        " infrastructure issues requiring attention.")).data = false := by
  have hdata : (pyLower ("Found " ++ natStr n ++
      " infrastructure issues requiring attention.")).data =
      "found ".data ++ ((natChars n).map lowerChar ++
        " infrastructure issues requiring attention.".data) := by
    show (("Found ".data ++ natChars n ++
      " infrastructure issues requiring attention.".data).map lowerChar) = _
    rw [List.map_append, List.map_append, List.append_assoc,
      show List.map lowerChar "Found ".data = "found ".data by decide,
      show List.map lowerChar
          " infrastructure issues requiring attention.".data =
        " infrastructure issues requiring attention.".data by decide]
  rw [hdata]
  have hdigits : (natChars n).map lowerChar = natChars n := by
    have hall : ∀ c ∈ natChars n, lowerChar c = c := by
      intro c hc
      obtain ⟨d, hd, rfl⟩ := natChars_digit n c hc
      exact (digitChar_facts hd).1
    rw [List.map_congr_left hall]
    exact List.map_id _
  rw [hdigits]
  apply containsSub_no_append
  · decide
  · apply containsSub_no_append
    · apply containsSub_no_of_no_n
      intro c hc
      obtain ⟨d, hd, rfl⟩ := natChars_digit n c hc
      exact (digitChar_facts hd).2.1
    · decide
    · intro y h
      injection h with h
      rw [← h]
      decide
  · intro y h
    rcases hnc : natChars n with _ | ⟨c, cs⟩
    · exact absurd hnc (natChars_ne_nil n)
    · rw [hnc, List.cons_append] at h
      injection h with h
      obtain ⟨d, hd, hcd⟩ := natChars_digit n c
        (by rw [hnc]; exact List.mem_cons_self c cs)
      rw [← h, hcd]
      exact (digitChar_facts hd).2.2

lemma pyGet_pySet_self :
    ∀ (o : List (String × JValue)) (k : String) (v : JValue),
      pyGet (pySet o k v) k = some v := by
  intro o
  induction o with
  | nil => intro k v; simp [pySet, pyGet, List.find?]
  | cons p rest ih =>
    intro k v
    obtain ⟨k', v'⟩ := p
    by_cases h : (k' == k) = true
    · simp [pySet, h, pyGet, List.find?]
    · rw [pySet]
      rw [if_neg (by simpa using h)]
      rw [pyGet, List.find?]
      rw [show ((k', v').1 == k) = false by simpa using h]
      exact ih k v

lemma pyGet_pySet_ne :
    ∀ (o : List (String × JValue)) {k q : String} (v : JValue),
      (k == q) = false → pyGet (pySet o k v) q = pyGet o q := by
  intro o
  induction o with
  | nil =>
    intro k q v h
    simp [pySet, pyGet, List.find?, h]
  | cons p rest ih =>
    intro k q v h
    obtain ⟨k', v'⟩ := p
    by_cases hk : (k' == k) = true
    · have hk' : k' = k := eq_of_beq hk
      subst hk'
      rw [pySet, if_pos (by simp)]
      rw [pyGet, pyGet, List.find?, List.find?]
      dsimp only
      rw [h]
    · rw [pySet, if_neg (by simpa using hk)]
      rw [pyGet, pyGet, List.find?, List.find?]
      by_cases hq : (k' == q) = true
      · rw [show ((k', v').1 == q) = true from hq]
      · rw [show ((k', v').1 == q) = false by simpa using hq]
        exact ih v h

/-- What the consistency-repair step guarantees: a successfully repaired
dict whose `issues` value is a non-empty list carries a string summary free
of the substring "no" (case-insensitively). -/
lemma repairResult_no_free {r r' : List (String × JValue)}
    (h : repairResult r = some r') {l : List JValue}
    (hg : pyGet r' "issues" = some (.arr l)) (hne : l ≠ []) :
    ∃ s, pyGet r' "summary" = some (.str s) ∧
      containsSub "no".data (pyLower s).data = false := by
  unfold repairResult at h
  cases hiv : pyGet r "issues" with
  | none => rw [hiv] at h; cases h
  | some iv =>
    rw [hiv] at h
    dsimp only at h
    by_cases htr : pyTruthy iv = true
    · rw [if_pos htr] at h
      cases hsum : pyGet r "summary" with
      | none => rw [hsum] at h; cases h
      | some sv =>
        rw [hsum] at h
        cases sv with
        | str s =>
          dsimp only at h
          by_cases hno : containsSub "no".data (pyLower s).data = true
          · rw [if_pos hno] at h
            cases hlen : pyLen iv with
            | none => rw [hlen] at h; cases h
            | some n =>
              rw [hlen] at h
              dsimp only at h
              injection h with h
              subst h
              exact ⟨_, pyGet_pySet_self r "summary" _,
                found_summary_no_free n⟩
          · rw [if_neg hno] at h
            injection h with h
            subst h
            exact ⟨s, hsum, by simpa using hno⟩
        | null => cases h
        | bool b => cases h
        | num q => cases h
        | arr elems => cases h
        | obj fields => cases h
    · rw [if_neg htr] at h
      injection h with h
      subst h
      rw [hiv] at hg
      injection hg with hg
      subst hg
      rw [show pyTruthy (JValue.arr l) = !l.isEmpty from rfl] at htr
      simp at htr
      exact absurd htr hne

/-- C3: every report returned by `generate_report` satisfies the Report
invariant: whenever its `issues` value is a non-empty list, its summary is a
string not containing "no" (case-insensitively) as a substring — for every
detection list, every standard-library behavior and every model response
(including raised exceptions). -/
theorem report_invariant (libs : PyLibs) (dets : List Detection)
    (resp : Except String String) (l : List JValue)
    (hiss : pyGet (generate_report libs dets resp).report "issues" =
      some (.arr l))
    (hne : l ≠ []) :
    ∃ s, pyGet (generate_report libs dets resp).report "summary" =
        some (.str s) ∧
      containsSub "no".data (pyLower s).data = false := by
  unfold generate_report at hiss ⊢
  by_cases hd : dets.isEmpty = true
  · rw [if_pos hd] at hiss
    have h0 : some (JValue.arr []) = some (JValue.arr l) := by
      rw [← hiss]; rfl
    injection h0 with h0
    injection h0 with h0
    exact absurd h0.symm hne
  · rw [if_neg hd] at hiss ⊢
    cases resp with
    | error e =>
      dsimp only at hiss
      have h0 : some (JValue.arr []) = some (JValue.arr l) := by
        rw [← hiss]; rfl
      injection h0 with h0
      injection h0 with h0
      exact absurd h0.symm hne
    | ok text =>
      dsimp only at hiss ⊢
      cases hrep : repairResult (extract_report_dict libs text) with
      | none =>
        rw [hrep] at hiss
        dsimp only at hiss
        have h0 : some (JValue.arr []) = some (JValue.arr l) := by
          rw [← hiss]; rfl
        injection h0 with h0
        injection h0 with h0
        exact absurd h0.symm hne
      | some r' =>
        rw [hrep] at hiss
        dsimp only at hiss ⊢
        exact repairResult_no_free hrep hiss hne

/-- C3 witness: a concrete run in which the model's summary contradicts a
non-empty issues list; the returned summary is "no"-free. -/
theorem report_invariant_witness :
    ∃ s, pyGet (generate_report libsMismatch
        [⟨"car", mkRat 1 2, ⟨0, 0, 1, 1⟩⟩] (.ok "output")).report
        "summary" = some (.str s) ∧
      containsSub "no".data (pyLower s).data = false :=
  report_invariant libsMismatch [⟨"car", mkRat 1 2, ⟨0, 0, 1, 1⟩⟩]
    (.ok "output") [.str "pothole"] rfl (by simp)

/-! ## C9: the empty-detections short circuit -/

/-- C9: on the empty detection list `generate_report` immediately returns
the fixed dict whose summary begins "No objects detected" and whose issues
list is empty, with the language-model chain never invoked — for every
standard-library behavior and every would-be response. -/
theorem generate_report_empty (libs : PyLibs) (resp : Except String String) :
    generate_report libs [] resp = ⟨noObjectsReport, false⟩ ∧
    (∃ s, pyGet noObjectsReport "summary" = some (.str s) ∧
      leadsWith "No objects detected".data s.data = true) ∧
    pyGet noObjectsReport "issues" = some (.arr []) :=
  ⟨rfl,
    ⟨"No objects detected. This may be due to poor image quality or empty scene.",
      rfl, by decide⟩,
    rfl⟩

/-! ## C6, C7, C8: the orchestrator -/

lemma fetch_path_cases (fe : FetchEnv) (a b : ℚ) (sp : String) :
    (fetch_street_view_image fe a b sp).path = none ∨
      (fetch_street_view_image fe a b sp).path = some sp := by
  unfold fetch_street_view_image
  rcases fe with ⟨apiKey, resp⟩
  cases apiKey with
  | none => exact Or.inl rfl
  | some k =>
    cases resp with
    | error u => exact Or.inl rfl
    | ok r =>
      dsimp only
      by_cases h1 : r.status = 200
      · rw [if_pos h1]
        by_cases h2 : containsSub "image".data (pyLower r.contentType).data = true
        · rw [if_pos h2]
          by_cases h3 : r.contentSize > 0
          · rw [if_pos h3]; exact Or.inr rfl
          · rw [if_neg h3]; exact Or.inl rfl
        · rw [if_neg h2]; exact Or.inl rfl
      · rw [if_neg h1]; exact Or.inl rfl

/-- C6: whenever the upload of the original image returns null, the
orchestration never reaches the persisting step (no `store_scan_data` call
is made, so no Scan row is created) and the run fails. -/
theorem upload_failure_fatal (env : ScanEnv) (lat lon : ℚ)
    (h : env.upload "latest_scan.jpg" = none) :
    (ScanLocation.main env lat lon).success = false ∧
      (ScanLocation.main env lat lon).storeArg = none := by
  unfold ScanLocation.main
  by_cases hv : validate_coordinates lat lon = false
  · rw [if_pos hv]
    exact ⟨rfl, rfl⟩
  · rw [if_neg hv]
    cases hf : (fetch_street_view_image env.fetchEnv lat lon
        "latest_scan.jpg").path with
    | none => exact ⟨rfl, rfl⟩
    | some p =>
      have hp : p = "latest_scan.jpg" := by
        rcases fetch_path_cases env.fetchEnv lat lon "latest_scan.jpg"
          with h' | h'
        · exact absurd (h'.symm.trans hf) (by simp)
        · exact (Option.some_inj.mp (h'.symm.trans hf)).symm
      subst hp
      dsimp only
      rw [if_neg (by decide), h]
      exact ⟨rfl, rfl⟩

/-- C6 witness: a concrete run with a failing original upload stores
nothing and fails. -/
theorem upload_failure_fatal_witness :
    (ScanLocation.main scanEnvUploadFail 0 0).success = false ∧
      (ScanLocation.main scanEnvUploadFail 0 0).storeArg = none :=
  upload_failure_fatal scanEnvUploadFail 0 0 rfl

/-- C8: when validation, fetch and the original upload succeed but
annotation fails, the annotated-image upload is skipped (the only storage
upload is the original image), the persisted record's
`annotated_image_url` equals `image_url`, and the run succeeds exactly when
the final insert does. -/
theorem annotation_failure_degrades (env : ScanEnv) (lat lon : ℚ)
    (url : String)
    (hv : validate_coordinates lat lon = true)
    (hf : (fetch_street_view_image env.fetchEnv lat lon
      "latest_scan.jpg").path = some "latest_scan.jpg")
    (hu : env.upload "latest_scan.jpg" = some url)
    (hurl : (url == "") = false)
    (hdraw : env.drawOk = false) :
    (ScanLocation.main env lat lon).uploadCalls = ["latest_scan.jpg"] ∧
    ∃ args, (ScanLocation.main env lat lon).storeArg = some args ∧
      args.annotated_image_url = args.image_url ∧
      args.image_url = url ∧
      (ScanLocation.main env lat lon).success = env.store args := by
  unfold ScanLocation.main
  rw [if_neg (by rw [hv]; simp), hf]
  dsimp only
  rw [if_neg (by decide), hu]
  dsimp only
  rw [if_neg (by rw [hurl]; simp), hdraw]
  simp only [Bool.false_eq_true, if_false]
  rw [hurl]
  simp only [Bool.false_eq_true, if_false]
  exact ⟨trivial, _, rfl, rfl, rfl, rfl⟩

/-- C8 witness: a concrete degraded run uploads once, persists
`annotated_image_url == image_url` and succeeds. -/
theorem annotation_failure_degrades_witness :
    (ScanLocation.main scanEnvDrawFail 0 0).uploadCalls =
      ["latest_scan.jpg"] ∧
    ∃ args, (ScanLocation.main scanEnvDrawFail 0 0).storeArg = some args ∧
      args.annotated_image_url = args.image_url ∧
      args.image_url = "http://storage/original.jpg" ∧
      (ScanLocation.main scanEnvDrawFail 0 0).success =
        scanEnvDrawFail.store args :=
  annotation_failure_degrades scanEnvDrawFail 0 0
    "http://storage/original.jpg" (by decide) rfl rfl (by decide) rfl

/-! ## C7: where coordinate validation happens -/

/-- C7 counterexample: `fetch_street_view_image` itself performs no
coordinate validation: with an API key present, latitude 91 (out of range)
still issues the HTTP GET to the imagery provider, and a 200 image response
is saved and returned. -/
theorem fetch_no_validation_cex :
    validate_coordinates 91 0 = false ∧
    fetch_street_view_image ⟨some "key", .ok ⟨200, "image/jpeg", 1⟩⟩ 91 0
        "street_view.jpg" =
      ⟨some "street_view.jpg", true⟩ := by
  constructor
  · unfold validate_coordinates
    rw [if_pos (by intro hc; exact absurd hc.2 (by decide))]
  · rfl

/-- C7 (amended): coordinate validation is performed by
`validate_coordinates`, which rejects any out-of-range latitude or
longitude, and the orchestrator calls it before fetching: such a scan fails
with the fetcher never invoked (hence no HTTP request).  The fetch function
itself does not validate (see the counterexample). -/
theorem coordinate_validation_before_fetch (lat lon : ℚ)
    (h : lat < -90 ∨ 90 < lat ∨ lon < -180 ∨ 180 < lon) :
    validate_coordinates lat lon = false ∧
    ∀ env : ScanEnv, (ScanLocation.main env lat lon).success = false ∧
      (ScanLocation.main env lat lon).fetchCalled = false := by
  have hv : validate_coordinates lat lon = false := by
    unfold validate_coordinates
    by_cases hc1 : ¬ (-90 ≤ lat ∧ lat ≤ 90)
    · rw [if_pos hc1]
    · rw [if_neg hc1]
      push_neg at hc1
      rw [if_pos (by
        intro hc2
        rcases h with h | h | h | h
        · exact absurd hc1.1 (by linarith)
        · exact absurd hc1.2 (by linarith)
        · exact absurd hc2.1 (by linarith)
        · exact absurd hc2.2 (by linarith))]
  refine ⟨hv, fun env => ?_⟩
  unfold ScanLocation.main
  rw [if_pos hv]
  exact ⟨rfl, rfl⟩

/-- C7 amended-theorem witness: latitude 91 is rejected before any fetch. -/
theorem coordinate_validation_before_fetch_witness :
    validate_coordinates 91 0 = false ∧
    (ScanLocation.main scanEnvDrawFail 91 0).success = false ∧
    (ScanLocation.main scanEnvDrawFail 91 0).fetchCalled = false :=
  have h := coordinate_validation_before_fetch 91 0
    (Or.inr (Or.inl (by decide)))
  ⟨h.1, (h.2 scanEnvDrawFail).1, (h.2 scanEnvDrawFail).2⟩
